import Mathlib

/-!
Verification of the prefect runner/orchestration excerpt.

The embedding covers:
* `prefect/_internal/concurrency/inspection.py` (trace gating, `_f_lineno`,
  `repr_frame`, `call_stack`, `stack_for_threads`), translated directly from
  the source;
* the runner webserver trigger surface, the Azure CLI command runner, the
  concurrency slot manager and the cancel scope, whose implementations are
  not part of the source tree: those are modelled from the specification
  (and, where the repository's tests pin concrete behaviour such as route
  paths and call sequences, from those tests).

Python machine-level details are modelled shallowly: frames and code objects
are records, `sys._current_frames()` is an association list, printing to
stderr is an `Option String` result, and a raised exception is `Option`/
`Except` failure.
-/

namespace Prefect

/-! ### Settings and trace gating (`inspection.py`, lines 16-38)

`trace_on` reads `PREFECT_DEBUG_MODE` / `PREFECT_TEST_MODE` once and caches
the result (`functools.cache`); `trace` prints a prefixed message to stderr
only when `trace_on()` is true. The cache is modelled explicitly as an
`Option Bool` threaded through calls; the printed line is the returned
`Option String` (`none` = nothing printed). -/

structure Settings where
  debugMode : Bool
  testMode : Bool
deriving DecidableEq, Repr

/-- `trace_on` body: `PREFECT_DEBUG_MODE.value() or PREFECT_TEST_MODE.value()`. -/
def trace_on (s : Settings) : Bool :=
  s.debugMode || s.testMode

/-- The `functools.cache` wrapper around `trace_on`: the first call computes
the value from the settings then visible and stores it; every later call
returns the stored value, ignoring the current settings. -/
def trace_on_cached (cache : Option Bool) (s : Settings) : Bool × Option Bool :=
  match cache with
  | some b => (b, some b)
  | none => (trace_on s, some (trace_on s))

/-- Python `%`-formatting with a positional tuple (`message % args`),
restricted to `%s` conversions: each `%s` is replaced by the next argument
in turn; other text passes through. -/
def percentFormat : List Char → List String → List Char
  | [], _ => []
  | '%' :: 's' :: rest, a :: moreArgs => a.data ++ percentFormat rest moreArgs
  | c :: rest, args => c :: percentFormat rest args

/-- One step of Python `%`-formatting with a mapping (`message % kwargs`),
replacing each `%(key)s` by the keyed value; fuelled by the input length
(each step consumes at least one character, so the fuel never runs out on
`pyNamedFormat`'s call). -/
def pyNamedFormatAux (kw : List (String × String)) : Nat → List Char → List Char
  | 0, l => l
  | _ + 1, [] => []
  | fuel + 1, '%' :: '(' :: rest =>
    (match rest.dropWhile (fun c => c ≠ ')') with
     | ')' :: 's' :: rest2 =>
        (match kw.lookup (String.mk (rest.takeWhile (fun c => c ≠ ')'))) with
         | some v => v.data
         | none => []) ++ pyNamedFormatAux kw fuel rest2
     | _ => '%' :: '(' :: pyNamedFormatAux kw fuel rest)
  | fuel + 1, c :: rest => c :: pyNamedFormatAux kw fuel rest

/-- Python `message % kwargs` for `%(key)s` conversions. -/
def pyNamedFormat (s : String) (kw : List (String × String)) : String :=
  String.mk (pyNamedFormatAux kw s.data.length s.data)

/-- `trace(message, *args, exc_info=False, **kwargs)`: when `trace_on()`
holds, prints `"<monotonic time> | <thread name> | "` followed by
`(message % args) % kwargs` to stderr, then the current traceback when
`exc_info` is set. The monotonic-clock reading, current thread name and
traceback text are inputs of the model; the first component of the result
is the list of lines printed to stderr (empty when nothing is printed),
the second the updated `trace_on` cache. -/
def trace (cache : Option Bool) (s : Settings) (timeStr threadName : String)
    (message : String) (args : List String) (exc_info : Bool)
    (tbText : String) (kwargs : List (String × String)) :
    List String × Option Bool :=
  let gate := trace_on_cached cache s
  (if gate.1 then
      (timeStr ++ " | " ++ threadName ++ " | " ++
        pyNamedFormat (String.mk (percentFormat message.data args)) kwargs)
      :: (if exc_info then [tbText] else [])
    else [],
   gate.2)

/-! ### Frames and code objects (`inspection.py`, lines 75-111) -/

/-- The parts of a Python code object that `_f_lineno` and `repr_frame`
read: `co_firstlineno`, `co_filename`, `co_name`, and the
`(instruction start offset, line)` pairs produced by
`dis.findlinestarts(code)` (ascending in offset). -/
structure CodeObj where
  co_firstlineno : Int
  co_filename : String
  co_name : String
  linestarts : List (Int × Int)
deriving DecidableEq, Repr

/-- A Python frame as read by the inspection helpers: `f_lineno` (possibly
`None`, see bpo-47085), `f_lasti`, `f_code`, and the `f_back` chain. -/
inductive PyFrame where
  | mk (f_lineno : Option Int) (f_lasti : Int) (f_code : CodeObj)
      (f_back : Option PyFrame)
deriving Repr

def PyFrame.f_lineno : PyFrame → Option Int
  | .mk ln _ _ _ => ln

def PyFrame.f_lasti : PyFrame → Int
  | .mk _ li _ _ => li

def PyFrame.f_code : PyFrame → CodeObj
  | .mk _ _ c _ => c

def PyFrame.f_back : PyFrame → Option PyFrame
  | .mk _ _ _ b => b

/-- The `for start, next_line in dis.findlinestarts(code)` loop of
`_f_lineno`: returns `prev_line` at the first entry whose `start` exceeds
`f_lasti`, otherwise carries that entry's line forward. -/
def linenoLoop (f_lasti : Int) (prev_line : Int) : List (Int × Int) → Int
  | [] => prev_line
  | (start, next_line) :: rest =>
    if f_lasti < start then prev_line else linenoLoop f_lasti next_line rest

/-- `_f_lineno(frame)`: `frame.f_lineno` when present, otherwise the line
recovered from `f_lasti` and `dis.findlinestarts`, starting from
`co_firstlineno`. -/
def f_lineno_of (frame : PyFrame) : Int :=
  match frame.f_lineno with
  | some n => n
  | none => linenoLoop frame.f_lasti frame.f_code.co_firstlineno
      frame.f_code.linestarts

/-- Python's `str.lstrip()` with no argument: drop leading whitespace. -/
def lstrip (s : String) : String :=
  String.mk (s.data.dropWhile (fun c => c.isWhitespace))

/-- The source-line store behind `linecache.getline(filename, lineno, globals)`:
a pure map from file name and line number to the line's text. -/
def Linecache : Type := String → Int → String

/-- `repr_frame(frame)`: `  File "<file>", line <n>, in <name>` followed by
the stripped source line. -/
def repr_frame (lc : Linecache) (frame : PyFrame) : String :=
  let co := frame.f_code
  let n := f_lineno_of frame
  let text := "  File \"" ++ co.co_filename ++ "\", line " ++ toString n ++
    ", in " ++ co.co_name
  let line := lstrip (lc co.co_filename n)
  text ++ "\n\t" ++ line

/-- The `while cur_frame` loop of `call_stack`: the list `L`, innermost
frame first. -/
def callStackLoop (lc : Linecache) : PyFrame → List String
  | .mk ln li c b =>
    repr_frame lc (.mk ln li c b) ::
      (match b with
       | none => []
       | some back => callStackLoop lc back)

/-- `call_stack(frame)`: the rendered frames of the `f_back` chain,
reversed so the outermost frame comes first (`L[::-1]`). -/
def call_stack (lc : Linecache) (frame : PyFrame) : List String :=
  (callStackLoop lc frame).reverse

/-- The `f_back` chain starting at a frame, innermost frame first. -/
def frameChain : PyFrame → List PyFrame
  | .mk ln li c b =>
    .mk ln li c b ::
      (match b with
       | none => []
       | some back => frameChain back)

/-! ### `stack_for_threads` (`inspection.py`, lines 114-130) -/

/-- Python's `hex(n)` for a nonnegative `n`. -/
def pyHex (n : Nat) : String :=
  "0x" ++ String.mk (Nat.toDigits 16 n)

/-- The fields of a `threading.Thread` that `stack_for_threads` reads:
`name` and `ident` (`None` until the thread starts). -/
structure PyThread where
  name : String
  ident : Option Nat
deriving Repr

/-- The mapping returned by `sys._current_frames()`: thread ident to the
thread's current topmost frame. -/
def FramesMap : Type := List (Nat × PyFrame)

/-- The header line appended for each thread:
`------ Call stack of <name> (<hex ident>) -----`. -/
def threadHeader (t : PyThread) (ident : Nat) : String :=
  "------ Call stack of " ++ t.name ++ " (" ++ pyHex ident ++ ") -----"

/-- The second line appended for each thread: the joined call stack of the
thread's current frame when `frames.get(thread.ident)` finds one, the
literal `No stack frames found` otherwise. -/
def threadBody (lc : Linecache) (frames : FramesMap) (ident : Nat) : String :=
  match frames.lookup ident with
  | some fr => String.join (call_stack lc fr)
  | none => "No stack frames found"

/-- The `for thread in threads` loop of `stack_for_threads`. `hex(None)`
raises `TypeError`, so a thread whose `ident` is `None` makes the whole
call fail: that is the `none` result. -/
def stackForThreadsLoop (lc : Linecache) (frames : FramesMap) :
    List PyThread → Option (List String)
  | [] => some []
  | t :: rest =>
    match t.ident with
    | none => none
    | some ident =>
      match stackForThreadsLoop lc frames rest with
      | none => none
      | some tail => some (threadHeader t ident :: threadBody lc frames ident :: tail)

/-- `stack_for_threads(*threads)` over a given `sys._current_frames()`
snapshot. -/
def stack_for_threads (lc : Linecache) (frames : FramesMap)
    (threads : List PyThread) : Option (List String) :=
  stackForThreadsLoop lc frames threads

/-- The mutable world visible to the inspection helpers: the interpreter's
current-frames mapping plus whatever scheduler/cancellation state (of an
arbitrary type `σ`) the rest of the system keeps. -/
structure World (σ : Type) where
  frames : FramesMap
  sched : σ

/-- State-passing form of the per-thread body of the loop: reads
`frames.get(ident)` from the world and returns the (possibly) updated
world alongside the two appended lines. -/
def stackThreadStep (σ : Type) (lc : Linecache) (t : PyThread)
    (w : World σ) : Option (List String) × World σ :=
  match t.ident with
  | none => (none, w)
  | some ident =>
    ((some [threadHeader t ident, threadBody lc w.frames ident]), w)

/-- State-passing form of `stack_for_threads`: each thread's step receives
the world left by the previous step, so any mutation would be visible in
the final world. -/
def stackForThreadsWorld (σ : Type) (lc : Linecache) (threads : List PyThread)
    (w : World σ) : Option (List String) × World σ :=
  match threads with
  | [] => (some [], w)
  | t :: rest =>
    match stackThreadStep σ lc t w with
    | (none, w2) => (none, w2)
    | (some pair, w2) =>
      match stackForThreadsWorld σ lc rest w2 with
      | (none, w3) => (none, w3)
      | (some tail, w3) => (some (pair ++ tail), w3)

/-! ### Runner webserver trigger surface

`prefect/runner/server.py` is not part of the source tree; the model below
follows §6 of the spec (JSON payload validated against a schema, 201 with
the run id on success, 400 on validation failure) with the route paths and
status codes pinned by `tests/runner/test_webserver.py`. -/

/-- JSON scalar values as they appear in a run-request payload. -/
inductive JsonVal where
  | nullV
  | boolV (b : Bool)
  | intV (n : Int)
  | strV (s : String)
deriving DecidableEq, Repr

/-- Parameter types recorded in a deployment's parameter schema. -/
inductive JsonType where
  | nullT
  | boolean
  | integer
  | string
deriving DecidableEq, Repr

def typeOf : JsonVal → JsonType
  | .nullV => .nullT
  | .boolV _ => .boolean
  | .intV _ => .integer
  | .strV _ => .string

/-- A deployment's parameter schema: the declared parameters and their
types. -/
structure ParamSchema where
  properties : List (String × JsonType)
deriving DecidableEq, Repr

/-- A JSON parameter payload as posted to a run route. -/
def Payload : Type := List (String × JsonVal)

/-- Modelled from the spec: schema validation of a run-request payload
(the pydantic-based validator of `prefect/runner/server.py` is not in the
source tree). Every supplied parameter must be declared in the schema with
a matching type; parameters with defaults may be omitted. -/
def validateSchema (schema : ParamSchema) (p : Payload) : Bool :=
  p.all fun kv =>
    match schema.properties.lookup kv.1 with
    | some ty => typeOf kv.2 == ty
    | none => false

/-- A deployment registered with the runner: its id and parameter schema. -/
structure Deployment where
  id : String
  schema : ParamSchema
deriving DecidableEq, Repr

/-- A runner holding its registered deployments. -/
structure Runner where
  deployments : List Deployment
deriving DecidableEq, Repr

/-- The response of a run route: HTTP status plus the created flow-run id
(present exactly on success). -/
structure RunResponse where
  status : Nat
  runId : Option String
deriving DecidableEq, Repr

/-- A route of the built webserver. -/
structure Route where
  method : String
  path : String
  handler : Payload → RunResponse

/-- The path of a deployment's run route, as asserted by
`test_runners_deployment_run_routes_exist`. -/
def deploymentRunPath (depId : String) : String :=
  "/deployment/" ++ depId ++ "/run"

/-- The id of the flow run created for a successful request (opaque to the
claims; only its presence matters). -/
def mkRunId (depId : String) : String :=
  "flow-run-for-" ++ depId

/-- Modelled from the spec: the run-route handler (missing
`prefect/runner/server.py`). A payload that passes schema validation
enqueues the run and yields 201 with the run id; a failing payload yields
400. -/
def runRouteHandler (d : Deployment) (p : Payload) : RunResponse :=
  if validateSchema d.schema p then
    { status := 201, runId := some (mkRunId d.id) }
  else
    { status := 400, runId := none }

/-- Modelled from the spec: `build_server(runner)` (missing
`prefect/runner/server.py`) registers one POST run route per registered
deployment, at the path pinned by the tests. -/
def build_server (r : Runner) : List Route :=
  r.deployments.map fun d =>
    { method := "POST", path := deploymentRunPath d.id, handler := runRouteHandler d }

/-- Dispatch of a POST request against the built routes: the first route
matching method and path handles the payload; no match is a 404. -/
def postJson (routes : List Route) (path : String) (p : Payload) : RunResponse :=
  match routes.find? (fun rt => rt.method == "POST" && rt.path == path) with
  | some rt => rt.handler p
  | none => { status := 404, runId := none }

/-! ### Azure CLI command execution (provisioners)

`prefect/infrastructure/provisioners/container_instance.py` is not part of
the source tree; `run_command` is modelled from §6 of the spec and
`_create_resource_group` from the call sequences asserted by
`tests/infrastructure/provisioners/test_container_instance.py`. -/

/-- Python's `subprocess.CalledProcessError` as raised by `run_command`. -/
structure CalledProcessError where
  returncode : Int
  cmd : String
  output : String
  stderr : String
deriving DecidableEq, Repr

/-- The outcome the shell reports for one executed command. -/
structure CmdOutcome where
  exitCode : Int
  stdout : String
  stderr : String
deriving DecidableEq, Repr

/-- Modelled from the spec: the external command-execution capability
`run_command(cmd, ignore_if_exists, return_json, success_message,
failure_message) -> result`, raising on nonzero exit unless
`ignore_if_exists` (the `AzureCLI` implementation is not in the source
tree). The success/failure messages only affect console output and the
`return_json` flag only the parsing of the result, so neither changes the
raise/return decision. -/
def run_command (outcome : CmdOutcome) (cmd : String) (ignore_if_exists : Bool)
    (return_json : Bool) (success_message failure_message : Option String) :
    Except CalledProcessError String :=
  if outcome.exitCode = 0 ∨ ignore_if_exists = true then
    .ok outcome.stdout
  else
    .error { returncode := outcome.exitCode, cmd := cmd,
             output := outcome.stdout, stderr := outcome.stderr }

/-- Truthiness of a JSON value, as Python's `if result:` sees it. -/
def truthy : JsonVal → Bool
  | .nullV => false
  | .boolV b => b
  | .intV n => n != 0
  | .strV s => s != ""

/-- A command runner as injected into the provisioner (the tests replace
`provisioner.azure_cli.run_command` by a mock of this shape): maps the
command line to a result or a raised `CalledProcessError`. -/
def CliRunner : Type := String → Except CalledProcessError JsonVal

def azGroupExistsCmd (rgName sub : String) : String :=
  "az group exists --name " ++ rgName ++ " --subscription " ++ sub

def azGroupCreateCmd (rgName loc sub : String) : String :=
  "az group create --name '" ++ rgName ++ "' --location '" ++ loc ++
    "' --subscription '" ++ sub ++ "'"

/-- Modelled from the spec: the provisioner step `_create_resource_group`
(missing `container_instance.py`), with the exact command sequence pinned
by the tests: query `az group exists`; when the group does not exist, run
`az group create`; any `CalledProcessError` raised by the injected
`run_command` propagates to the caller. -/
def _create_resource_group (cli : CliRunner) (rgName loc sub : String) :
    Except CalledProcessError Unit :=
  match cli (azGroupExistsCmd rgName sub) with
  | .error e => .error e
  | .ok existing =>
    if truthy existing then
      .ok ()
    else
      match cli (azGroupCreateCmd rgName loc sub) with
      | .error e => .error e
      | .ok _ => .ok ()

/-! ### ConcurrencySlotManager

No slot-manager implementation is in the source tree; the model follows
§3 (invariant 4), §4.4 and §8 of the spec. -/

/-- Per-key state of the slot manager: the key's slot capacity and the set
of holder run ids (kept duplicate-free, as a set). -/
structure ConcurrencyLimit where
  total : Nat
  holders : List String
deriving DecidableEq, Repr

/-- The held count of a key: how many run ids currently hold a slot. -/
def heldCount (l : ConcurrencyLimit) : Nat :=
  l.holders.length

/-- Modelled from the spec: `acquire(key, run_id) -> bool`, a non-blocking
reservation attempt that fails exactly on exhaustion (the slot-manager
implementation is not in the source tree). On success the run id is added
to the holder set (set insertion: already-holding ids are not duplicated). -/
def acquire (l : ConcurrencyLimit) (run_id : String) : Bool × ConcurrencyLimit :=
  if heldCount l < l.total then
    (true,
     { l with holders := if run_id ∈ l.holders then l.holders else run_id :: l.holders })
  else
    (false, l)

/-- Modelled from the spec: `release(key, run_id)` returns the run's slot;
a release by a non-holder is logged, not fatal, and leaves the state
unchanged (the slot-manager implementation is not in the source tree). -/
def release (l : ConcurrencyLimit) (run_id : String) : ConcurrencyLimit :=
  { l with holders := l.holders.erase run_id }

/-- One operation of an acquire/release interleaving on a single key. -/
inductive SlotOp where
  | acq (run_id : String)
  | rel (run_id : String)
deriving DecidableEq, Repr

def applySlotOp (l : ConcurrencyLimit) : SlotOp → ConcurrencyLimit
  | .acq r => (acquire l r).2
  | .rel r => release l r

def applySlotOps (l : ConcurrencyLimit) (ops : List SlotOp) : ConcurrencyLimit :=
  ops.foldl applySlotOp l

/-- A key freshly registered with `N` total slots and no holders. -/
def initLimit (n : Nat) : ConcurrencyLimit :=
  { total := n, holders := [] }

/-! ### CancelScope

No cancel-scope implementation is in the source tree; the model follows
§3 (invariants 2 and 3) and §4.2 of the spec. -/

/-- Call states, ordered one-directionally
(`pending→running→{finished|cancelled}`). -/
inductive CallState where
  | pending
  | running
  | cancelled
  | finished
deriving DecidableEq, Repr

/-- A Call as a cancel scope sees it: identity, lifecycle state, and the
cooperative-cancellation request flag. -/
structure Call where
  id : Nat
  state : CallState
  cancelRequested : Bool
deriving DecidableEq, Repr

/-- Modelled from the spec: requesting cooperative cancellation on a
registered Call (the Call implementation is not in the source tree). A
Call that already finished keeps its result untouched; every other Call
gets the cancellation request flag set. -/
def requestCancel (c : Call) : Call :=
  if c.state = .finished then c else { c with cancelRequested := true }

/-- A cancel scope with its registered Calls and child scopes (scopes form
a tree, §3). -/
inductive ScopeTree where
  | node (id : Nat) (cancelled : Bool) (calls : List Call) (children : List ScopeTree)
deriving Repr

mutual

/-- Modelled from the spec: `cancel()` on a scope (the CancelScope
implementation is not in the source tree): marks the scope and all
descendant scopes cancelled and requests cooperative cancellation on every
non-finished registered Call. -/
def ScopeTree.cancel : ScopeTree → ScopeTree
  | .node i _ cs ch => .node i true (cs.map requestCancel) (cancelForest ch)

/-- Cancellation propagated through a list of child scopes. -/
def cancelForest : List ScopeTree → List ScopeTree
  | [] => []
  | t :: ts => t.cancel :: cancelForest ts

end

/-! ### Concrete inputs used by witness and counterexample theorems -/

/-- A concrete source-line store. -/
def lcC : Linecache := fun _ _ => "  x = 1"

/-- A concrete code object with three line starts. -/
def codeC : CodeObj :=
  { co_firstlineno := 10, co_filename := "flow.py", co_name := "g",
    linestarts := [(0, 10), (4, 11), (8, 12)] }

/-- A concrete frame lacking `f_lineno`, stopped at instruction offset 5. -/
def frameC : PyFrame := .mk none 5 codeC none

/-- A concrete started thread with ident 1. -/
def threadsC : List PyThread := [{ name := "MainThread", ident := some 1 }]

/-- A concrete `sys._current_frames()` snapshot. -/
def framesC : FramesMap := [(1, frameC)]

/-- A concrete parameter schema with one string parameter `verb`. -/
def schemaC : ParamSchema := { properties := [("verb", .string)] }

/-- A concrete deployment. -/
def dC : Deployment := { id := "d1", schema := schemaC }

/-- A concrete runner with one registered deployment. -/
def runnerC : Runner := { deployments := [dC] }

/-- A payload that passes `schemaC` validation. -/
def payloadC : Payload := [("verb", .strV "clobber")]

/-- The error the provisioner tests inject:
`CalledProcessError(1, "cmd", output="output", stderr="error")`. -/
def cpeC : CalledProcessError :=
  { returncode := 1, cmd := "cmd", output := "output", stderr := "error" }

/-- A command runner that reports the resource group as absent and fails
the `az group create` call, as in
`test_aci_resource_group_creation_handles_errors`. -/
def mockCli : CliRunner := fun cmd =>
  if cmd = azGroupExistsCmd "prefect-aci-push-pool-rg" "None" then .ok .nullV
  else .error cpeC

/-! ## Theorems -/

/-- Claim C6: `trace` is gated by the debug flag: a call prints a line to
stderr if and only if the (cached) `trace_on()` value is true;
`trace_on()` is `PREFECT_DEBUG_MODE or PREFECT_TEST_MODE` as first
checked, the first call stores that value, every later call returns the
stored value; and when neither flag was set at the first check, `trace`
prints nothing. (Totality — "trace is a no-op" rather than an error — is
by construction: the model is a total function.) -/
theorem trace_gated_by_debug_flag :
    (∀ cache s timeStr threadName message args exc_info tbText kwargs,
        (trace cache s timeStr threadName message args
            exc_info tbText kwargs).1.isEmpty
          = !(trace_on_cached cache s).1)
  ∧ (∀ s : Settings, trace_on s = (s.debugMode || s.testMode))
  ∧ (∀ s : Settings, trace_on_cached none s = (trace_on s, some (trace_on s)))
  ∧ (∀ (b : Bool) (s : Settings), trace_on_cached (some b) s = (b, some b))
  ∧ (∀ cache s timeStr threadName message args exc_info tbText kwargs,
        (trace_on_cached cache s).1 = false →
        (trace cache s timeStr threadName message args
            exc_info tbText kwargs).1 = []) := by
  refine ⟨?_, fun _ => rfl, fun _ => rfl, fun _ _ => rfl, ?_⟩
  · intro cache s timeStr threadName message args exc_info tbText kwargs
    simp only [trace]
    cases hg : (trace_on_cached cache s).1 <;> simp [hg]
  · intro cache s timeStr threadName message args exc_info tbText kwargs h
    simp only [trace]
    simp [h]

/-- Witness for C6: with both flags off and an empty cache, the gate is
false and nothing is printed. -/
theorem trace_gated_by_debug_flag_witness :
    (trace_on_cached none { debugMode := false, testMode := false }).1 = false
  ∧ (trace none { debugMode := false, testMode := false }
      "1.0" "MainThread" "hello %s" ["world"] false "tb" []).1 = [] :=
  ⟨by decide,
   trace_gated_by_debug_flag.2.2.2.2 none
     { debugMode := false, testMode := false }
     "1.0" "MainThread" "hello %s" ["world"] false "tb" [] (by decide)⟩

/-- Auxiliary for C9: the `while` loop of `call_stack` renders exactly the
frames of the `f_back` chain, innermost first. -/
theorem callStackLoop_eq_chain (lc : Linecache) :
    ∀ f : PyFrame, callStackLoop lc f = (frameChain f).map (repr_frame lc)
  | .mk ln li c none => by
      simp [callStackLoop, frameChain]
  | .mk ln li c (some b) => by
      simp only [callStackLoop, frameChain, List.map_cons]
      exact congrArg _ (callStackLoop_eq_chain lc b)

/-- Claim C9: `call_stack(frame)` returns exactly one rendered entry (via
`repr_frame`) per frame of the `f_back` chain starting at `frame`, equal to
the map of `repr_frame` over the chain reversed, so the outermost frame
comes first and the given frame last. -/
theorem call_stack_eq_reversed_chain (lc : Linecache) (f : PyFrame) :
    call_stack lc f = ((frameChain f).map (repr_frame lc)).reverse := by
  rw [call_stack, callStackLoop_eq_chain]

/-- Claim C7: `stack_for_threads` is a read-only snapshot: run in
state-passing style over a world holding the current-frames mapping and an
arbitrary scheduler/cancellation state, it returns exactly the pure
function of the frames passed in, and the final world equals the initial
one — no thread, frame, or scheduler state (of any type `σ`) is changed. -/
theorem stack_for_threads_readonly (σ : Type) (lc : Linecache)
    (threads : List PyThread) (w : World σ) :
    stackForThreadsWorld σ lc threads w
      = (stack_for_threads lc w.frames threads, w) := by
  induction threads with
  | nil => rfl
  | cons t rest ih =>
    simp only [stackForThreadsWorld, stackThreadStep, stack_for_threads,
      stackForThreadsLoop]
    cases hid : t.ident with
    | none => rfl
    | some ident =>
      dsimp only
      rw [ih]
      simp only [stack_for_threads]
      cases hloop : stackForThreadsLoop lc w.frames rest <;>
        simp only [hloop] <;> rfl

/-- Auxiliary for C8: with the line-start offsets strictly increasing (as
`dis.findlinestarts` yields them), the scan of `_f_lineno` returns the
accumulator when every start exceeds `f_lasti`, and otherwise the line of
the greatest start not exceeding `f_lasti`. -/
theorem linenoLoop_spec (lasti : Int) :
    ∀ (l : List (Int × Int)) (prev : Int),
      l.Pairwise (fun a b => a.1 < b.1) →
      ((∀ e ∈ l, lasti < e.1) ∧ linenoLoop lasti prev l = prev)
      ∨ (∃ e ∈ l, e.1 ≤ lasti ∧
          (∀ e2 ∈ l, e2.1 ≤ lasti → e2.1 ≤ e.1) ∧
          linenoLoop lasti prev l = e.2)
  | [], prev, _ => Or.inl ⟨by simp, rfl⟩
  | (s, ln) :: rest, prev, hp => by
      rcases List.pairwise_cons.mp hp with ⟨h1, h2⟩
      by_cases hcase : lasti < s
      · left
        refine ⟨?_, by simp [linenoLoop, hcase]⟩
        intro e he
        rcases List.mem_cons.mp he with rfl | hmem
        · exact hcase
        · exact lt_trans hcase (h1 e hmem)
      · rcases linenoLoop_spec lasti rest ln h2 with ⟨hall, heq⟩ | ⟨e, hmem, hle, hmax, heq⟩
        · refine Or.inr ⟨(s, ln), List.mem_cons_self _ _, not_lt.mp hcase, ?_,
            by simp [linenoLoop, hcase, heq]⟩
          intro e2 he2 hle2
          rcases List.mem_cons.mp he2 with rfl | hmem2
          · exact le_refl _
          · exact absurd hle2 (not_le.mpr (hall e2 hmem2))
        · refine Or.inr ⟨e, List.mem_cons_of_mem _ hmem, hle, ?_,
            by simp [linenoLoop, hcase, heq]⟩
          intro e2 he2 hle2
          rcases List.mem_cons.mp he2 with rfl | hmem2
          · exact le_of_lt (h1 e hmem)
          · exact hmax e2 hmem2 hle2

/-- Claim C8: `_f_lineno` is total (a total function by construction, so it
never raises and never returns `None`); it returns `frame.f_lineno`
whenever that is present, and otherwise — for line starts in the ascending
offset order `dis.findlinestarts` produces — either every line start
exceeds `f_lasti` and the result is `co_firstlineno`, or the result is the
line of the greatest instruction-start offset not exceeding `f_lasti`. -/
theorem f_lineno_total_correct (frame : PyFrame)
    (hs : frame.f_code.linestarts.Pairwise (fun a b => a.1 < b.1)) :
    (∀ n, frame.f_lineno = some n → f_lineno_of frame = n)
  ∧ (frame.f_lineno = none →
      ((∀ e ∈ frame.f_code.linestarts, frame.f_lasti < e.1) ∧
        f_lineno_of frame = frame.f_code.co_firstlineno)
      ∨ (∃ e ∈ frame.f_code.linestarts, e.1 ≤ frame.f_lasti ∧
          (∀ e2 ∈ frame.f_code.linestarts,
            e2.1 ≤ frame.f_lasti → e2.1 ≤ e.1) ∧
          f_lineno_of frame = e.2)) := by
  constructor
  · intro n hn
    simp [f_lineno_of, hn]
  · intro hn
    have h := linenoLoop_spec frame.f_lasti frame.f_code.linestarts
      frame.f_code.co_firstlineno hs
    simpa [f_lineno_of, hn] using h

/-- Witness for C8: on `frameC` (no `f_lineno`, `f_lasti = 5`, strictly
ascending line starts) the theorem applies; its fallback branch names
offset 4 / line 11 as the greatest start not exceeding 5. -/
theorem f_lineno_total_correct_witness :
    frameC.f_code.linestarts.Pairwise (fun a b => a.1 < b.1)
  ∧ ((∀ n, frameC.f_lineno = some n → f_lineno_of frameC = n)
  ∧ (frameC.f_lineno = none →
      ((∀ e ∈ frameC.f_code.linestarts, frameC.f_lasti < e.1) ∧
        f_lineno_of frameC = frameC.f_code.co_firstlineno)
      ∨ (∃ e ∈ frameC.f_code.linestarts, e.1 ≤ frameC.f_lasti ∧
          (∀ e2 ∈ frameC.f_code.linestarts,
            e2.1 ≤ frameC.f_lasti → e2.1 ≤ e.1) ∧
          f_lineno_of frameC = e.2))) :=
  ⟨by decide, f_lineno_total_correct frameC (by decide)⟩

/-- Auxiliary for C10: the per-thread loop of `stack_for_threads`, when
every thread has started, yields the header and body lines, two per
thread, in argument order. -/
theorem stackForThreadsLoop_eq (lc : Linecache) (frames : FramesMap) :
    ∀ threads : List PyThread, (∀ t ∈ threads, t.ident ≠ none) →
      stackForThreadsLoop lc frames threads
        = some (threads.flatMap fun t =>
            [threadHeader t (t.ident.getD 0), threadBody lc frames (t.ident.getD 0)])
  | [], _ => rfl
  | t :: rest, h => by
      cases hid : t.ident with
      | none => exact absurd hid (h t (List.mem_cons_self _ _))
      | some ident =>
        have ih := stackForThreadsLoop_eq lc frames rest
          (fun t2 ht2 => h t2 (List.mem_cons_of_mem _ ht2))
        simp [stackForThreadsLoop, hid, ih]

/-- Claim C10: for threads that have all started, `stack_for_threads`
returns exactly two entries per thread, in argument order — the header
line naming the thread and its ident, then either the joined call-stack
text (when the current-frames mapping has the ident) or
`No stack frames found`. -/
theorem stack_for_threads_two_per_thread (lc : Linecache) (frames : FramesMap)
    (threads : List PyThread) (h : ∀ t ∈ threads, t.ident ≠ none) :
    stack_for_threads lc frames threads
      = some (threads.flatMap fun t =>
          [threadHeader t (t.ident.getD 0), threadBody lc frames (t.ident.getD 0)])
  ∧ (∀ lines, stack_for_threads lc frames threads = some lines →
      lines.length = 2 * threads.length) := by
  have hmain := stackForThreadsLoop_eq lc frames threads h
  refine ⟨hmain, ?_⟩
  intro lines hl
  rw [stack_for_threads, hmain] at hl
  cases hl
  induction threads with
  | nil => rfl
  | cons t rest ih =>
    have := ih (fun t2 ht2 => h t2 (List.mem_cons_of_mem _ ht2))
      (stackForThreadsLoop_eq lc frames rest
        (fun t2 ht2 => h t2 (List.mem_cons_of_mem _ ht2)))
    simp [List.flatMap_cons] at this ⊢
    omega

/-- Witness for C10: one started thread with ident 1 whose frame is in the
snapshot. -/
theorem stack_for_threads_two_per_thread_witness :
    (∀ t ∈ threadsC, t.ident ≠ none)
  ∧ (stack_for_threads lcC framesC threadsC
      = some (threadsC.flatMap fun t =>
          [threadHeader t (t.ident.getD 0), threadBody lcC framesC (t.ident.getD 0)])
  ∧ (∀ lines, stack_for_threads lcC framesC threadsC = some lines →
      lines.length = 2 * threadsC.length)) :=
  ⟨by decide,
   stack_for_threads_two_per_thread lcC framesC threadsC (by decide)⟩

/-- Auxiliary for C5: requesting cancellation of a Call is idempotent: a
finished Call is untouched, any other Call's request flag is simply true. -/
theorem requestCancel_idem (c : Call) :
    requestCancel (requestCancel c) = requestCancel c := by
  unfold requestCancel
  by_cases h : c.state = CallState.finished <;> simp [h]

mutual

/-- Auxiliary for C5: cancelling an already-cancelled scope tree changes
nothing. -/
theorem scopeCancel_idem_aux : ∀ t : ScopeTree, t.cancel.cancel = t.cancel
  | .node i c cs ch => by
      simp only [ScopeTree.cancel, ScopeTree.node.injEq, true_and]
      refine ⟨?_, cancelForest_idem_aux ch⟩
      rw [List.map_map]
      exact List.map_congr_left (fun a _ => requestCancel_idem a)

/-- Auxiliary for C5: cancelling an already-cancelled forest of child
scopes changes nothing. -/
theorem cancelForest_idem_aux :
    ∀ ts : List ScopeTree, cancelForest (cancelForest ts) = cancelForest ts
  | [] => rfl
  | t :: ts => by
      rw [cancelForest, cancelForest, scopeCancel_idem_aux t, cancelForest_idem_aux ts]

end

/-- Claim C5: `cancel()` is idempotent: calling it twice on a scope yields
exactly the same scope tree — same scope state, same cancelled state of
every descendant scope, and the same cancellation requests on every
registered Call — as calling it once. -/
theorem cancel_twice_eq_cancel_once (t : ScopeTree) :
    t.cancel.cancel = t.cancel :=
  scopeCancel_idem_aux t

/-- Auxiliary for C4: one slot-manager operation never changes a key's
capacity. -/
theorem total_applySlotOp (l : ConcurrencyLimit) (op : SlotOp) :
    (applySlotOp l op).total = l.total := by
  cases op with
  | acq r =>
    simp only [applySlotOp, acquire]
    split <;> rfl
  | rel r => rfl

/-- Auxiliary for C4: one slot-manager operation preserves the bound
`held ≤ total`. -/
theorem held_le_applySlotOp (l : ConcurrencyLimit) (op : SlotOp)
    (h : heldCount l ≤ l.total) :
    heldCount (applySlotOp l op) ≤ (applySlotOp l op).total := by
  rw [total_applySlotOp]
  cases op with
  | acq r =>
    simp only [applySlotOp, acquire]
    split
    · rename_i hlt
      by_cases hmem : r ∈ l.holders <;>
        simp_all [heldCount] <;> omega
    · exact h
  | rel r =>
    simp only [applySlotOp, release, heldCount]
    exact le_trans (List.Sublist.length_le (List.erase_sublist r l.holders)) h

/-- Auxiliary for C4: every sequence of operations keeps `held ≤ total`
and leaves the capacity unchanged. -/
theorem held_le_applySlotOps :
    ∀ (ops : List SlotOp) (l : ConcurrencyLimit), heldCount l ≤ l.total →
      heldCount (applySlotOps l ops) ≤ (applySlotOps l ops).total ∧
      (applySlotOps l ops).total = l.total
  | [], l, h => ⟨h, rfl⟩
  | op :: ops, l, h => by
      have step := held_le_applySlotOp l op h
      have hrec := held_le_applySlotOps ops (applySlotOp l op) step
      exact ⟨hrec.1, hrec.2.trans (total_applySlotOp l op)⟩

/-- Claim C4: for a key with `N` slots, every acquire/release interleaving
keeps the held count within `[0, N]` — at every point of the sequence the
held count (a natural number, hence `≥ 0`) is at most `N` — and `acquire`
never returns success while the held count equals the capacity. -/
theorem slot_manager_invariant (n : Nat) (ops : List SlotOp) :
    (∀ seen rest, ops = seen ++ rest →
        heldCount (applySlotOps (initLimit n) seen) ≤ n)
  ∧ (∀ (l : ConcurrencyLimit) (r : String), heldCount l = l.total →
        (acquire l r).1 = false) := by
  constructor
  · intro seen rest hsplit
    have h := held_le_applySlotOps seen (initLimit n) (by simp [heldCount, initLimit])
    calc heldCount (applySlotOps (initLimit n) seen)
        ≤ (applySlotOps (initLimit n) seen).total := h.1
      _ = n := h.2
  · intro l r h
    simp [acquire, h]

/-- Witness for C4: with one slot, after `acquire r1; acquire r2` the held
count is at most 1, and `acquire` on a full key reports failure. -/
theorem slot_manager_invariant_witness :
    ([SlotOp.acq "r1", SlotOp.acq "r2"]
      = [SlotOp.acq "r1", SlotOp.acq "r2"] ++ ([] : List SlotOp))
  ∧ heldCount { total := 1, holders := ["r1"] }
      = ConcurrencyLimit.total { total := 1, holders := ["r1"] }
  ∧ heldCount (applySlotOps (initLimit 1) [SlotOp.acq "r1", SlotOp.acq "r2"]) ≤ 1
  ∧ (acquire { total := 1, holders := ["r1"] } "r2").1 = false :=
  ⟨rfl, by decide,
   (slot_manager_invariant 1 [SlotOp.acq "r1", SlotOp.acq "r2"]).1
     [SlotOp.acq "r1", SlotOp.acq "r2"] [] rfl,
   (slot_manager_invariant 1 []).2 { total := 1, holders := ["r1"] } "r2" (by decide)⟩

/-- Claim C2: `run_command` raises `CalledProcessError` exactly when the
command exits nonzero and `ignore_if_exists` is not set; and
`_create_resource_group` propagates a `CalledProcessError` raised by the
injected `run_command` (here: the group-exists query succeeds with a falsy
result and the group-create call raises) to its caller. -/
theorem run_command_raises_unless_ignored :
    (∀ (outcome : CmdOutcome) (cmd : String) (iie rj : Bool) (sm fm : Option String),
        (∃ e, run_command outcome cmd iie rj sm fm = .error e)
          ↔ (outcome.exitCode ≠ 0 ∧ iie = false))
  ∧ (∀ (cli : CliRunner) (rg loc sub : String) (v : JsonVal) (e : CalledProcessError),
        cli (azGroupExistsCmd rg sub) = .ok v → truthy v = false →
        cli (azGroupCreateCmd rg loc sub) = .error e →
        _create_resource_group cli rg loc sub = .error e) := by
  constructor
  · intro outcome cmd iie rj sm fm
    by_cases h1 : outcome.exitCode = 0 <;> by_cases h2 : iie <;>
      simp [run_command, h1, h2]
  · intro cli rg loc sub v e h1 h2 h3
    unfold _create_resource_group
    rw [h1, h3]
    simp [h2]

/-- Witness for C2: a nonzero exit without `ignore_if_exists` raises, and
with the mock command runner of
`test_aci_resource_group_creation_handles_errors` the provisioner step
returns the raised error. -/
theorem run_command_raises_unless_ignored_witness :
    (∃ e, run_command { exitCode := 1, stdout := "output", stderr := "error" }
        "cmd" false false none none = .error e)
  ∧ mockCli (azGroupExistsCmd "prefect-aci-push-pool-rg" "None") = .ok JsonVal.nullV
  ∧ truthy JsonVal.nullV = false
  ∧ mockCli (azGroupCreateCmd "prefect-aci-push-pool-rg" "None" "None") = .error cpeC
  ∧ _create_resource_group mockCli "prefect-aci-push-pool-rg" "None" "None"
      = .error cpeC :=
  ⟨(run_command_raises_unless_ignored.1
      { exitCode := 1, stdout := "output", stderr := "error" }
      "cmd" false false none none).mpr (by decide),
   by rfl, by decide, by rfl,
   run_command_raises_unless_ignored.2 mockCli
     "prefect-aci-push-pool-rg" "None" "None" JsonVal.nullV cpeC
     (by rfl) (by decide) (by rfl)⟩

/-- Auxiliary for C1/C3: distinct deployment ids give distinct run-route
paths. -/
theorem deploymentRunPath_inj {a b : String}
    (h : deploymentRunPath a = deploymentRunPath b) : a = b := by
  have hd := congrArg String.data h
  simp only [deploymentRunPath, String.data_append, List.append_assoc] at hd
  have h2 := List.append_cancel_left hd
  have h3 := List.append_cancel_right h2
  cases a
  cases b
  congr

/-- Auxiliary for C1: posting to a registered deployment's run route
dispatches to that deployment's handler (ids being unique, the route is
unambiguous). -/
theorem postJson_build_server :
    ∀ (ds : List Deployment) (d : Deployment) (p : Payload),
      d ∈ ds → (ds.map Deployment.id).Nodup →
      postJson (build_server { deployments := ds }) (deploymentRunPath d.id) p
        = runRouteHandler d p
  | [], d, _, hmem, _ => absurd hmem (List.not_mem_nil d)
  | d0 :: ds, d, p, hmem, hnodup => by
      rw [List.map_cons, List.nodup_cons] at hnodup
      obtain ⟨hnotin, hnodup2⟩ := hnodup
      rcases List.mem_cons.mp hmem with rfl | hmem2
      · simp only [build_server, List.map_cons, postJson]
        rw [List.find?_cons_of_pos]
        simp
      · have hne : d0.id ≠ d.id := fun hh =>
          hnotin (hh ▸ List.mem_map_of_mem Deployment.id hmem2)
        simp only [build_server, List.map_cons, postJson]
        rw [List.find?_cons_of_neg]
        · exact postJson_build_server ds d p hmem2 hnodup2
        · intro hq
          simp only [Bool.and_eq_true, beq_iff_eq] at hq
          exact hne (deploymentRunPath_inj hq.2)

/-- Claim C1: for every deployment registered with the runner (deployment
ids being unique), a POST of a payload to its run route returns 201 with
the run id when the payload passes schema validation, and 400 (with no run
id) when it fails. -/
theorem run_route_validation (r : Runner) (d : Deployment) (p : Payload)
    (hmem : d ∈ r.deployments)
    (hnodup : (r.deployments.map Deployment.id).Nodup) :
    postJson (build_server r) (deploymentRunPath d.id) p
      = if validateSchema d.schema p = true then
          { status := 201, runId := some (mkRunId d.id) }
        else
          { status := 400, runId := none } := by
  obtain ⟨ds⟩ := r
  rw [postJson_build_server ds d p hmem hnodup]
  rfl

/-- Witness for C1: the concrete runner with deployment `d1` and the
passing payload `verb = "clobber"`. -/
theorem run_route_validation_witness :
    dC ∈ runnerC.deployments
  ∧ (runnerC.deployments.map Deployment.id).Nodup
  ∧ postJson (build_server runnerC) (deploymentRunPath dC.id) payloadC
      = if validateSchema dC.schema payloadC = true then
          { status := 201, runId := some (mkRunId dC.id) }
        else
          { status := 400, runId := none } :=
  ⟨by decide, by decide,
   run_route_validation runnerC dC payloadC (by decide) (by decide)⟩

/-- Counterexample to C3 as stated: `runnerC` registers deployment `d1`;
the built server's only run route has path `/deployment/d1/run`, and no
route has the claimed path `/run/d1`. -/
theorem run_route_path_counterexample :
    ((build_server runnerC).map Route.path = ["/deployment/d1/run"])
  ∧ "/run/d1" ∉ (build_server runnerC).map Route.path := by
  constructor
  · decide
  · decide

/-- Claim C3 (amended): the run routes are exposed at
`POST /deployment/{id}/run` (not `/run/{id}`); with deployment ids unique,
the built server's route paths are exactly the registered deployments'
run paths in order, every route is a POST route whose path belongs to a
registered deployment, and every registered deployment has exactly one
run route. -/
theorem run_routes_amended (r : Runner)
    (hnodup : (r.deployments.map Deployment.id).Nodup) :
    ((build_server r).map Route.path
        = r.deployments.map (fun d => deploymentRunPath d.id))
  ∧ (∀ rt ∈ build_server r, rt.method = "POST" ∧
        ∃ d ∈ r.deployments, rt.path = deploymentRunPath d.id)
  ∧ (∀ d ∈ r.deployments,
        ((build_server r).filter
            (fun rt => rt.path == deploymentRunPath d.id)).length = 1) := by
  refine ⟨?_, ?_, ?_⟩
  · simp [build_server, List.map_map]
  · intro rt hrt
    simp only [build_server, List.mem_map] at hrt
    obtain ⟨d, hd, rfl⟩ := hrt
    exact ⟨rfl, d, hd, rfl⟩
  · intro d hd
    have hpt : ∀ d2 : Deployment,
        ((deploymentRunPath d2.id == deploymentRunPath d.id) : Bool)
          = (d2.id == d.id) := by
      intro d2
      by_cases h : d2.id = d.id
      · simp [h]
      · have hpp : deploymentRunPath d2.id ≠ deploymentRunPath d.id :=
          fun hp => h (deploymentRunPath_inj hp)
        simp [h, hpp]
    rw [← List.countP_eq_length_filter]
    simp only [build_server, List.countP_map]
    dsimp only [Function.comp_def]
    simp only [hpt]
    have hcount : r.deployments.countP (fun d2 => d2.id == d.id)
        = (r.deployments.map Deployment.id).count d.id := by
      rw [List.count, List.countP_map]
      rfl
    rw [hcount]
    exact List.count_eq_one_of_mem hnodup (List.mem_map_of_mem Deployment.id hd)

/-- Witness for the amended C3: the concrete runner with deployment `d1`. -/
theorem run_routes_amended_witness :
    (runnerC.deployments.map Deployment.id).Nodup
  ∧ (((build_server runnerC).map Route.path
        = runnerC.deployments.map (fun d => deploymentRunPath d.id))
  ∧ (∀ rt ∈ build_server runnerC, rt.method = "POST" ∧
        ∃ d ∈ runnerC.deployments, rt.path = deploymentRunPath d.id)
  ∧ (∀ d ∈ runnerC.deployments,
        ((build_server runnerC).filter
            (fun rt => rt.path == deploymentRunPath d.id)).length = 1)) :=
  ⟨by decide, run_routes_amended runnerC (by decide)⟩

end Prefect
